import Mathlib

/-!
Verification of the natural-language specification of `flytekit/core/utils.py`
against a shallow embedding of its functions in Lean 4.

Strings are modelled as Lean `String` (a list of unicode code points, matching
Python's view of `str`); the character-class tests `isalnum`, `islower`,
`isdigit` and `lower()` of the source are modelled by Lean's
`Char.isAlphanum`, `Char.isLower`, `Char.isDigit` and `Char.toLower`, which
agree with Python on the ASCII fragment; every theorem below either restricts
its inputs to that fragment or evaluates at concrete ASCII inputs.
-/

namespace Flytekit

/-! ## `_dnsify` (utils.py lines 26-61) -/

/-- The separator test of the character loop of `_dnsify`:
`ch == "_" or ch == "-" or ch == "."` (utils.py line 42). -/
def isSep (ch : Char) : Bool :=
  ch == '_' || ch == '-' || ch == '.'

/-- One iteration of the `for ch in value` loop of `_dnsify`
(utils.py lines 41-56), acting on the accumulator `res`. -/
def dnsifyStep (res : List Char) (ch : Char) : List Char :=
  if isSep ch then
    -- separator: append "-" unless res is empty or already 62 chars long
    if res ≠ [] ∧ res.length < 62 then res ++ ['-'] else res
  else if !ch.isAlphanum then
    -- trim non-alphanumeric letters
    res
  else if ch.isLower || ch.isDigit then
    -- already compliant, just append
    res ++ [ch]
  else
    -- upper-case: add a "-" before it unless res is empty, ends in "-", or is 62 chars long
    (if res ≠ [] ∧ res.getLast? ≠ some '-' ∧ res.length < 62 then res ++ ['-'] else res)
      ++ [ch.toLower]

/-- The whole character loop of `_dnsify`, folding `dnsifyStep` from the left
over the input (utils.py lines 41-56). -/
def dnsifyLoop (res : List Char) (l : List Char) : List Char :=
  l.foldl dnsifyStep res

/-- The character pass of `_dnsify` followed by the final single strip of a
trailing hyphen (utils.py lines 41-59). -/
def dnsifyList (l : List Char) : List Char :=
  let res := dnsifyLoop [] l
  if res.getLast? = some '-' then res.dropLast else res

/-- `_dnsify` (utils.py lines 26-61).  The sha224 hex digest used by the
long-input branch comes from Python's hashlib, which is outside the embedded
source; it is passed in as the argument `sha224hex`.  Every theorem below
either quantifies over it or never reaches that branch (inputs shorter than
63 characters). -/
def _dnsify (sha224hex : String → String) (value : String) : String :=
  let value :=
    if 63 ≤ value.length then
      String.mk ((sha224hex value).data.take 10) ++ "-"
        ++ String.mk (value.data.drop (value.length - 52))
    else value
  String.mk (dnsifyList value.data)

/-- A concrete stand-in for the hash argument, used only by closed evaluation
theorems whose inputs are shorter than 63 characters, so that the long-input
branch (the only consumer of the hash) is never taken. -/
def noHash : String → String := fun _ => ""

/-- The character alphabet of the spec's testable property: letters, digits,
and the three separator characters. -/
def allowedChar (c : Char) : Bool :=
  c.isAlpha || c.isDigit || c == '_' || c == '-' || c == '.'

/-- Characters that can appear in the accumulator of the `_dnsify` loop:
lowercase letters, digits and hyphens. -/
def goodOut (c : Char) : Bool :=
  c.isLower || c.isDigit || c == '-'

/-! ## Data model of `_get_container_definition` (utils.py lines 64-128) -/

/-- The resource-kind enum of the Flyte IDL protobuf
(`flyteidl.core.tasks_pb2.Resources.ResourceName`), an external dependency;
its constructor names are the protobuf enum value names. -/
inductive ResourceName where
  | UNKNOWN
  | CPU
  | GPU
  | MEMORY
  | STORAGE
  | EPHEMERAL_STORAGE
deriving DecidableEq

/-- `task_models.Resources.ResourceEntry`: a (resource kind, string quantity)
pair. -/
structure ResourceEntry where
  name : ResourceName
  value : String
deriving DecidableEq

/-- `task_models.Resources`: sparse lists of limit and request entries. -/
structure Resources where
  limits : List ResourceEntry
  requests : List ResourceEntry
deriving DecidableEq

/-- `task_models.Container`, the task-model container descriptor returned by
`_get_container_definition`.  `DataLoadingConfig` is an opaque pass-through
value in the source and is modelled by `Unit`; the `config` and `env`
mappings are modelled as association lists in insertion order. -/
structure Container where
  image : String
  command : List String
  args : Option (List String)
  resources : Resources
  env : Option (List (String × String))
  config : List (String × String)
  data_loading_config : Option Unit
deriving DecidableEq

/-- Modelled from the spec: `flytekit.core.resources.Resources` (the
dataclass consumed by `_get_container_definition`) is not part of src/; per
the spec it maps "a fixed set of resource kinds (CPU, memory, GPU, ephemeral
storage) to string-encoded quantities".  Each dimension is an optional
string-encoded quantity. -/
structure PyResources where
  cpu : Option String
  mem : Option String
  gpu : Option String
  ephemeral_storage : Option String
deriving DecidableEq

/-- `flytekit.core.resources.ResourceSpec`: a (limits, requests) pair. -/
structure ResourceSpec where
  limits : PyResources
  requests : PyResources
deriving DecidableEq

/-- Modelled from the spec: `flytekit.core.resources._check_resource_is_singular`
is not part of src/; per the spec it validates that "each resource dimension
is present at most once" and fails on caller error.  With `Option`-valued
dimensions every value is already singular, so the validator returns its
input unchanged. -/
def _check_resource_is_singular (r : PyResources) : PyResources := r

/-- Python truthiness of an optional string (`if cpu_request:` in the
source): `None` and the empty string are falsy. -/
def pyTruthy : Option String → Bool
  | none => false
  | some s => s != ""

/-- `_get_container_definition` (utils.py lines 64-128): projects the
resource spec into sparse request/limit entry lists (ephemeral storage, CPU,
GPU, memory, in the source's append order, keeping only truthy values) and
assembles the container descriptor. -/
def _get_container_definition (image : String) (resource_spec : ResourceSpec)
    (command : List String) (args : Option (List String))
    (data_loading_config : Option Unit)
    (environment : Option (List (String × String))) : Container :=
  let limits := _check_resource_is_singular resource_spec.limits
  let requests := _check_resource_is_singular resource_spec.requests
  let ephemeral_storage_limit := limits.ephemeral_storage
  let ephemeral_storage_request := requests.ephemeral_storage
  let cpu_limit := limits.cpu
  let cpu_request := requests.cpu
  let gpu_limit := limits.gpu
  let gpu_request := requests.gpu
  let memory_limit := limits.mem
  let memory_request := requests.mem
  let requestEntries :=
    (if pyTruthy ephemeral_storage_request then
      [ResourceEntry.mk ResourceName.EPHEMERAL_STORAGE (ephemeral_storage_request.getD "")]
    else [])
    ++ (if pyTruthy cpu_request then
      [ResourceEntry.mk ResourceName.CPU (cpu_request.getD "")] else [])
    ++ (if pyTruthy gpu_request then
      [ResourceEntry.mk ResourceName.GPU (gpu_request.getD "")] else [])
    ++ (if pyTruthy memory_request then
      [ResourceEntry.mk ResourceName.MEMORY (memory_request.getD "")] else [])
  let limitEntries :=
    (if pyTruthy ephemeral_storage_limit then
      [ResourceEntry.mk ResourceName.EPHEMERAL_STORAGE (ephemeral_storage_limit.getD "")]
    else [])
    ++ (if pyTruthy cpu_limit then
      [ResourceEntry.mk ResourceName.CPU (cpu_limit.getD "")] else [])
    ++ (if pyTruthy gpu_limit then
      [ResourceEntry.mk ResourceName.GPU (gpu_limit.getD "")] else [])
    ++ (if pyTruthy memory_limit then
      [ResourceEntry.mk ResourceName.MEMORY (memory_limit.getD "")] else [])
  let environment := environment.getD []
  { image := image
    command := command
    args := args
    resources := Resources.mk limitEntries requestEntries
    env := some environment
    config := []
    data_loading_config := data_loading_config }

/-- The protobuf enum value name of a resource kind
(`_core_task.Resources.ResourceName.Name(...)` in the source, an external
flyteidl lookup). -/
def protoName : ResourceName → String
  | ResourceName.UNKNOWN => "UNKNOWN"
  | ResourceName.CPU => "CPU"
  | ResourceName.GPU => "GPU"
  | ResourceName.MEMORY => "MEMORY"
  | ResourceName.STORAGE => "STORAGE"
  | ResourceName.EPHEMERAL_STORAGE => "EPHEMERAL_STORAGE"

/-- `_sanitize_resource_name` (utils.py lines 131-132):
`.lower().replace("_", "-")` applied to the protobuf enum name; the
single-character replacement is modelled characterwise. -/
def _sanitize_resource_name (r : ResourceEntry) : String :=
  String.mk ((protoName r.name).data.map (fun c =>
    if c.toLower = '_' then '-' else c.toLower))

/-! ## Data model of `_serialize_pod_spec` (utils.py lines 135-198) -/

/-- `kubernetes.client.models.V1EnvVar` (external): a name/value pair. -/
structure V1EnvVar where
  name : String
  value : String
deriving DecidableEq

/-- `kubernetes.client.models.V1ResourceRequirements` (external): limit and
request mappings, modelled as association lists in insertion order. -/
structure V1ResourceRequirements where
  limits : List (String × String)
  requests : List (String × String)
deriving DecidableEq

/-- `kubernetes.client.models.V1Container` (external), restricted to the
fields `_serialize_pod_spec` reads or writes; a bare `V1Container(name=...)`
has every other field `None`. -/
structure V1Container where
  name : String
  image : Option String
  command : Option (List String)
  args : Option (List String)
  resources : Option V1ResourceRequirements
  env : Option (List V1EnvVar)
deriving DecidableEq

/-- `kubernetes.client.V1PodSpec` (external), restricted to its container
list, the only field `_serialize_pod_spec` touches. -/
structure V1PodSpec where
  containers : List V1Container
deriving DecidableEq

/-- `flytekit.core.pod_template.PodTemplate`, restricted to the two fields
`_serialize_pod_spec` reads: the optional pod spec and the primary container
name. -/
structure PodTemplate where
  pod_spec : Option V1PodSpec
  primary_container_name : String
deriving DecidableEq

/-- `flytekit.configuration.SerializationSettings`, restricted to the only
field `_serialize_pod_spec` reads; the image configuration type is opaque to
the source and is a type parameter here. -/
structure SerializationSettings (Cfg : Type) where
  image_config : Cfg

/-- Python dict assignment `d[k] = v` on an association list: overwrite in
place if the key exists, append otherwise. -/
def dictInsert (d : List (String × String)) (k v : String) : List (String × String) :=
  if d.any (fun kv => kv.1 == k) then
    d.map (fun kv => if kv.1 == k then (k, v) else kv)
  else d ++ [(k, v)]

/-- The `for resource in ...: d[_sanitize_resource_name(resource)] =
resource.value` loops of `_serialize_pod_spec` (utils.py lines 179-183). -/
def buildResourceDict (entries : List ResourceEntry) : List (String × String) :=
  entries.foldl (fun d r => dictInsert d (_sanitize_resource_name r) r.value) []

/-- The body of the `for container in containers` loop of
`_serialize_pod_spec` (utils.py lines 164-195).  The image-resolution
collaborator `get_registerable_container_image` is imported from
`flytekit.core.python_auto_container`, outside the embedded source, and is
passed in as a function argument; per the spec it "maps a declared image
reference plus serialization settings to a final registry image string". -/
def transformContainer {Cfg : Type}
    (get_registerable_container_image : Option String → Cfg → String)
    (settings : SerializationSettings Cfg) (primary_container_name : String)
    (primary_container : Container) (c : V1Container) : V1Container :=
  if c.name = primary_container_name then
    { name := c.name
      image :=
        match c.image with
        | none => some primary_container.image
        | some img =>
          some (get_registerable_container_image (some img) settings.image_config)
      command := some primary_container.command
      args := primary_container.args
      resources :=
        let limits := buildResourceDict primary_container.resources.limits
        let requests := buildResourceDict primary_container.resources.requests
        if 0 < limits.length ∨ 0 < requests.length then
          some (V1ResourceRequirements.mk limits requests)
        else c.resources
      env :=
        match primary_container.env with
        | none => c.env
        | some e => some (e.map (fun kv => V1EnvVar.mk kv.1 kv.2) ++ c.env.getD []) }
  else
    { c with image := some (get_registerable_container_image c.image settings.image_config) }

/-- Modelled from the spec: the output of the external kubernetes
serialization facility is "a nested mapping (lists/dicts of primitive
values) matching the shape of a Kubernetes PodSpec". -/
inductive KVal where
  | str : String → KVal
  | arr : List KVal → KVal
  | obj : List (String × KVal) → KVal

/-- A string-to-string mapping serialized as a nested-mapping object. -/
def kvDict (d : List (String × String)) : KVal :=
  KVal.obj (d.map (fun kv => (kv.1, KVal.str kv.2)))

/-- Modelled from the spec: the serialized attribute list of one container,
as produced by the external `ApiClient().sanitize_for_serialization`
(kubernetes client, not in src/): each non-`None` attribute becomes an entry
of the nested mapping, `None` attributes are dropped. -/
def sanitizeContainerFields (c : V1Container) : List (String × KVal) :=
  [( "name", KVal.str c.name)]
  ++ (match c.image with
      | none => []
      | some i => [( "image", KVal.str i)])
  ++ (match c.command with
      | none => []
      | some cmd => [( "command", KVal.arr (cmd.map KVal.str))])
  ++ (match c.args with
      | none => []
      | some a => [( "args", KVal.arr (a.map KVal.str))])
  ++ (match c.resources with
      | none => []
      | some r => [( "resources",
          KVal.obj [( "limits", kvDict r.limits), ( "requests", kvDict r.requests)])])
  ++ (match c.env with
      | none => []
      | some e => [( "env", KVal.arr (e.map (fun v =>
          KVal.obj [( "name", KVal.str v.name), ( "value", KVal.str v.value)])))])

/-- One serialized container object. -/
def sanitizeContainer (c : V1Container) : KVal :=
  KVal.obj (sanitizeContainerFields c)

/-- Modelled from the spec: `ApiClient().sanitize_for_serialization` applied
to the final pod spec (utils.py line 198), restricted to the container list
carried by the modelled `V1PodSpec`. -/
def sanitize_for_serialization (ps : V1PodSpec) : List (String × KVal) :=
  [( "containers", KVal.arr (ps.containers.map sanitizeContainer))]

/-- `_serialize_pod_spec` (utils.py lines 135-198) as a pure function: if no
pod spec is declared the result is the empty mapping; otherwise a placeholder
primary container is appended when no declared container carries the primary
name, every container is transformed by the loop body, and the result is
serialized.  `copy.deepcopy` (line 149) is the identity on immutable values;
its frame effect on the caller's mutable state is modelled separately by
`_serialize_pod_spec_heap`. -/
def _serialize_pod_spec {Cfg : Type}
    (get_registerable_container_image : Option String → Cfg → String)
    (pod_template : PodTemplate) (primary_container : Container)
    (settings : SerializationSettings Cfg) : List (String × KVal) :=
  match pod_template.pod_spec with
  | none => []
  | some ps =>
    let containers :=
      if ∃ c ∈ ps.containers, c.name = pod_template.primary_container_name then
        ps.containers
      else
        ps.containers ++
          [V1Container.mk pod_template.primary_container_name none none none none none]
    sanitize_for_serialization (V1PodSpec.mk (containers.map
      (transformContainer get_registerable_container_image settings
        pod_template.primary_container_name primary_container)))

/-- Key lookup in a serialized object's attribute list. -/
def kvLookup (fields : List (String × KVal)) (k : String) : Option KVal :=
  match fields with
  | [] => none
  | kv :: rest => if kv.1 = k then some kv.2 else kvLookup rest k

/-! ## Heap model of `_serialize_pod_spec` for the frame property

The Python function mutates `V1Container` objects (`container.image = ...`)
that, without the `copy.deepcopy` on line 149, would be the caller's own
objects.  To state the frame claim, container objects are modelled as cells
of an explicit store; a pod template holds store indices; `copy.deepcopy`
allocates fresh cells at the end of the store; every later write targets the
fresh cells. -/

/-- The default cell content used by out-of-range reads (never reached on
valid references). -/
def defaultV1Container : V1Container := V1Container.mk "" none none none none none

/-- Dereference a container cell. -/
def storeRead (σ : List V1Container) (i : Nat) : V1Container :=
  σ[i]?.getD defaultV1Container

/-- A pod template whose pod spec holds references into the container
store. -/
structure PodTemplateRef where
  pod_spec : Option (List Nat)
  primary_container_name : String

/-- `_serialize_pod_spec` as a store transformer: the same algorithm as the
pure `_serialize_pod_spec`, with `copy.deepcopy` modelled as allocation of
fresh cells (indices `σ.length`, `σ.length + 1`, ...) holding copies of the
referenced containers, and each loop-body mutation modelled as a store write
to the copied cell.  Returns the serialized output together with the final
store. -/
def _serialize_pod_spec_heap {Cfg : Type}
    (get_registerable_container_image : Option String → Cfg → String)
    (pod_template : PodTemplateRef) (primary_container : Container)
    (settings : SerializationSettings Cfg) (σ : List V1Container) :
    List (String × KVal) × List V1Container :=
  match pod_template.pod_spec with
  | none => ([], σ)
  | some refs =>
    let base := σ.length
    let σ1 := σ ++ refs.map (fun r => storeRead σ r)
    let refs1 := (List.range refs.length).map (fun i => base + i)
    let σ2 :=
      if ∃ r ∈ refs1, (storeRead σ1 r).name = pod_template.primary_container_name then σ1
      else σ1 ++ [V1Container.mk pod_template.primary_container_name none none none none none]
    let refs2 :=
      if ∃ r ∈ refs1, (storeRead σ1 r).name = pod_template.primary_container_name then refs1
      else refs1 ++ [σ1.length]
    let σ3 := refs2.foldl (fun σ' r =>
      σ'.set r (transformContainer get_registerable_container_image settings
        pod_template.primary_container_name primary_container (storeRead σ' r))) σ2
    (sanitize_for_serialization (V1PodSpec.mk (refs2.map (fun r => storeRead σ3 r))), σ3)

/-! ## Model of `timeit` (utils.py lines 284-341)

Real time is modelled by abstract counters in an explicit state: `utcNow`
models `datetime.now`, `perfCounter` models `time.perf_counter`,
`processTime` models `time.process_time`.  The timeline deck is the list the
wrapped context appends its record to.  A wrapped code block is a state
transformer that returns a normal value or raises (`Except`). -/

/-- One timing record appended to the timeline deck
(utils.py lines 331-339). -/
structure TimeRecord where
  Name : String
  Start : Nat
  Finish : Nat
  WallTime : Int
  ProcessTime : Int
deriving DecidableEq

/-- The state seen by `timeit`: the three clocks and the timeline deck. -/
structure TState where
  utcNow : Nat
  perfCounter : Nat
  processTime : Nat
  deck : List TimeRecord

/-- Python's `with` statement for a non-suppressing context manager:
`__enter__` runs first, the body runs next, and `__exit__` runs whether the
body returned normally or raised; because `timeit.__exit__` returns `None`
(falsy), an exception is re-raised unchanged after `__exit__` completes. -/
def pythonWith {σ β ε α : Type} (enter : σ → β × σ)
    (body : σ → Except ε α × σ)
    (exitF : β → Option ε → σ → σ) (s : σ) : Except ε α × σ :=
  match enter s with
  | (b, s0) =>
    match body s0 with
    | (Except.ok a, s1) => (Except.ok a, exitF b none s1)
    | (Except.error e, s1) => (Except.error e, exitF b (some e) s1)

/-- `timeit.__enter__` (utils.py lines 313-317): record the three start
clocks; reading a clock does not change the state. -/
def timeit_enter (s : TState) : (Nat × Nat × Nat) × TState :=
  ((s.utcNow, s.perfCounter, s.processTime), s)

/-- `timeit.__exit__` (utils.py lines 319-341): read the end clocks, append
one record to the timeline deck, and ignore the exception information. -/
def timeit_exit {ε : Type} (name : String) (st : Nat × Nat × Nat) (_exc : Option ε)
    (s : TState) : TState :=
  { s with deck := s.deck ++ [TimeRecord.mk name st.1 s.utcNow
      ((s.perfCounter : Int) - (st.2.1 : Int))
      ((s.processTime : Int) - (st.2.2 : Int))] }

/-- A `with timeit(name): body` block. -/
def timeit_run {ε α : Type} (name : String) (body : TState → Except ε α × TState)
    (s : TState) : Except ε α × TState :=
  pythonWith timeit_enter body (timeit_exit name) s

/-- `timeit.__call__` (utils.py lines 305-311): the decorator form wraps each
call of the function in a `with self:` block, so it reduces to
`timeit_run`. -/
def timeit_call {γ ε α : Type} (name : String)
    (func : γ → TState → Except ε α × TState) : γ → TState → Except ε α × TState :=
  fun x => timeit_run name (func x)

/-! ## Concrete inputs used by the witnesses -/

/-- A concrete image-resolution function for witnesses. -/
def egResolve : Option String → Unit → String :=
  fun o _ => (o.getD "") ++ "-resolved"

/-- Concrete serialization settings for witnesses. -/
def egSettings : SerializationSettings Unit := SerializationSettings.mk ()

/-- A concrete computed primary container for witnesses. -/
def egPrimary : Container :=
  Container.mk "computed" [] none (Resources.mk [] []) none [] none

/-- A declared container named "p" carrying its own image. -/
def egDeclared : V1Container :=
  V1Container.mk "p" (some "declared") none none none none

/-- A pod spec whose only container is `egDeclared`. -/
def egPodSpecDeclared : V1PodSpec := V1PodSpec.mk [egDeclared]

/-- A pod template whose primary-named container declares an image. -/
def egTemplateDeclared : PodTemplate := PodTemplate.mk (some egPodSpecDeclared) "p"

/-- A declared container not named "p". -/
def egOther : V1Container := V1Container.mk "other" (some "x") none none none none

/-- A pod spec with no container named "p". -/
def egPodSpecOther : V1PodSpec := V1PodSpec.mk [egOther]

/-- A pod template whose pod spec has no primary-named container. -/
def egTemplateNoPrimary : PodTemplate := PodTemplate.mk (some egPodSpecOther) "p"

/-! ## Theorems -/

theorem isLower_toLower {c : Char} (h : c.isUpper = true) : (c.toLower).isLower = true := by
  have hb := h
  simp only [Char.isUpper, Bool.and_eq_true, decide_eq_true_eq] at hb
  obtain ⟨h1, h2⟩ := hb
  have h1' : 65 ≤ c.toNat := UInt32.le_toNat_of_le (by decide) h1
  have h2' : c.toNat ≤ 90 := UInt32.toNat_le_of_le (by decide) h2
  have : c.toNat = 65 ∨ c.toNat = 66 ∨ c.toNat = 67 ∨ c.toNat = 68 ∨ c.toNat = 69 ∨
      c.toNat = 70 ∨ c.toNat = 71 ∨ c.toNat = 72 ∨ c.toNat = 73 ∨ c.toNat = 74 ∨
      c.toNat = 75 ∨ c.toNat = 76 ∨ c.toNat = 77 ∨ c.toNat = 78 ∨ c.toNat = 79 ∨
      c.toNat = 80 ∨ c.toNat = 81 ∨ c.toNat = 82 ∨ c.toNat = 83 ∨ c.toNat = 84 ∨
      c.toNat = 85 ∨ c.toNat = 86 ∨ c.toNat = 87 ∨ c.toNat = 88 ∨ c.toNat = 89 ∨
      c.toNat = 90 := by omega
  rcases this with h|h|h|h|h|h|h|h|h|h|h|h|h|h|h|h|h|h|h|h|h|h|h|h|h|h <;>
    · simp only [Char.toLower, h]
      rw [if_pos (by omega)]
      decide

theorem not_isSep_of_lower_digit {c : Char} (h : (c.isLower || c.isDigit) = true) :
    isSep c = false := by
  cases hc : isSep c
  · rfl
  · exfalso
    simp only [isSep, Bool.or_eq_true, beq_iff_eq] at hc
    rcases hc with (rfl | rfl) | rfl <;> exact absurd h (by decide)

theorem isAlphanum_of_lower_digit {c : Char} (h : (c.isLower || c.isDigit) = true) :
    c.isAlphanum = true := by
  simp only [Char.isAlphanum, Char.isAlpha, Bool.or_eq_true] at *
  rcases h with h | h
  · exact Or.inl (Or.inr h)
  · exact Or.inr h

theorem isUpper_of_alnum_not_lower_digit {c : Char} (halnum : c.isAlphanum = true)
    (h : (c.isLower || c.isDigit) = false) : c.isUpper = true := by
  have hl : c.isLower = false := by
    cases hl : c.isLower
    · rfl
    · rw [hl] at h; simp at h
  have hd : c.isDigit = false := by
    cases hd : c.isDigit
    · rfl
    · rw [hd] at h; simp at h
  simp only [Char.isAlphanum, Char.isAlpha, hl, hd, Bool.or_false] at halnum
  exact halnum

theorem lower_digit_of_goodOut_ne_hyphen {c : Char} (hc : goodOut c = true) (hne : c ≠ '-') :
    (c.isLower || c.isDigit) = true := by
  simp only [goodOut, Bool.or_eq_true, beq_iff_eq] at hc
  rcases hc with (h | h) | h
  · simp [h]
  · simp [h]
  · exact absurd h hne

theorem head?_dropLast_ne (l : List Char) (h : l.head? ≠ some '-') :
    l.dropLast.head? ≠ some '-' := by
  match l with
  | [] => simp
  | [a] => simp
  | a :: b :: t => simpa [List.dropLast] using h

/-- Each loop step preserves the accumulator invariant: only lowercase
alphanumerics and hyphens appear, and the first character is not a hyphen.
The invariant holds for arbitrary input characters. -/
theorem dnsifyStep_invariant (res : List Char) (ch : Char)
    (h1 : ∀ c ∈ res, goodOut c = true) (h2 : res.head? ≠ some '-') :
    (∀ c ∈ dnsifyStep res ch, goodOut c = true) ∧ (dnsifyStep res ch).head? ≠ some '-' := by
  unfold dnsifyStep
  by_cases hsep : isSep ch = true
  · rw [if_pos hsep]
    by_cases hg : res ≠ [] ∧ res.length < 62
    · rw [if_pos hg]
      constructor
      · intro c hc
        rcases List.mem_append.mp hc with hc | hc
        · exact h1 c hc
        · rw [List.mem_singleton.mp hc]; decide
      · obtain ⟨a, t, rfl⟩ := List.exists_cons_of_ne_nil hg.1
        simpa using h2
    · rw [if_neg hg]; exact ⟨h1, h2⟩
  · rw [if_neg hsep]
    by_cases halnum : ch.isAlphanum = true
    · rw [if_neg (show ¬ ((!ch.isAlphanum) = true) by simp [halnum])]
      by_cases hld : (ch.isLower || ch.isDigit) = true
      · rw [if_pos hld]
        have hchne : ch ≠ '-' := by
          intro hcontra
          rw [hcontra] at hsep
          exact hsep (by decide)
        constructor
        · intro c hc
          rcases List.mem_append.mp hc with hc | hc
          · exact h1 c hc
          · rw [List.mem_singleton.mp hc]
            simp [goodOut, hld]
        · match res, h1, h2 with
          | [], _, _ => simpa using hchne
          | a :: t, h1, h2 => simpa using h2
      · rw [if_neg hld]
        have hup : ch.isUpper = true :=
          isUpper_of_alnum_not_lower_digit halnum (by simpa using hld)
        have hlow : (ch.toLower).isLower = true := isLower_toLower hup
        have hlowne : ch.toLower ≠ '-' := by
          intro hcontra
          rw [hcontra] at hlow
          exact absurd hlow (by decide)
        have hmem : ∀ base : List Char, (∀ c ∈ base, goodOut c = true) →
            ∀ c ∈ base ++ [ch.toLower], goodOut c = true := by
          intro base hbase c hc
          rcases List.mem_append.mp hc with hc | hc
          · exact hbase c hc
          · rw [List.mem_singleton.mp hc]
            simp [goodOut, hlow]
        by_cases hg : res ≠ [] ∧ res.getLast? ≠ some '-' ∧ res.length < 62
        · rw [if_pos hg]
          constructor
          · apply hmem
            intro c hc
            rcases List.mem_append.mp hc with hc | hc
            · exact h1 c hc
            · rw [List.mem_singleton.mp hc]; decide
          · obtain ⟨a, t, rfl⟩ := List.exists_cons_of_ne_nil hg.1
            simpa using h2
        · rw [if_neg hg]
          constructor
          · exact hmem res h1
          · match res, h1, h2 with
            | [], _, _ => simpa using hlowne
            | a :: t, h1, h2 => simpa using h2
    · rw [if_pos (show ((!ch.isAlphanum) = true) by simpa using halnum)]
      exact ⟨h1, h2⟩

/-- The loop invariant carried over the whole character pass. -/
theorem dnsifyLoop_invariant (l : List Char) :
    ∀ res : List Char,
      (∀ c ∈ res, goodOut c = true) → res.head? ≠ some '-' →
      (∀ c ∈ dnsifyLoop res l, goodOut c = true) ∧ (dnsifyLoop res l).head? ≠ some '-' := by
  induction l with
  | nil => intro res h1 h2; exact ⟨h1, h2⟩
  | cons ch l ih =>
    intro res h1 h2
    have hstep := dnsifyStep_invariant res ch h1 h2
    exact ih (dnsifyStep res ch) hstep.1 hstep.2

/-- Strings made of lowercase alphanumerics and hyphens are reproduced
verbatim by the loop, as long as the accumulator stays under 62 characters. -/
theorem dnsifyLoop_fixed_aux (rest : List Char) :
    ∀ acc : List Char, acc ≠ [] → acc.length + rest.length ≤ 62 →
      (∀ c ∈ rest, goodOut c = true) → dnsifyLoop acc rest = acc ++ rest := by
  induction rest with
  | nil => intro acc _ _ _; simp [dnsifyLoop]
  | cons c rest ih =>
    intro acc hne hlen hgood
    have hc : goodOut c = true := hgood c (List.mem_cons_self _ _)
    have hlen' : acc.length + rest.length + 1 ≤ 62 := by
      simp only [List.length_cons] at hlen
      omega
    have hstep : dnsifyStep acc c = acc ++ [c] := by
      by_cases hhy : c = '-'
      · subst hhy
        unfold dnsifyStep
        have hs : isSep '-' = true := by decide
        rw [if_pos hs, if_pos (show acc ≠ [] ∧ acc.length < 62 from ⟨hne, by omega⟩)]
      · have hld := lower_digit_of_goodOut_ne_hyphen hc hhy
        unfold dnsifyStep
        rw [if_neg (show ¬ isSep c = true by simp [not_isSep_of_lower_digit hld]),
          if_neg (show ¬ ((!c.isAlphanum) = true) by simp [isAlphanum_of_lower_digit hld]),
          if_pos hld]
    have hrec : dnsifyLoop acc (c :: rest) = dnsifyLoop (dnsifyStep acc c) rest := rfl
    have hih := ih (acc ++ [c]) (by simp)
      (by simp only [List.length_append, List.length_singleton]; omega)
      (fun c' hc' => hgood c' (List.mem_cons_of_mem _ hc'))
    rw [hrec, hstep, hih]
    simp

/-- Fixed points of the character pass: a string of at most 62 lowercase
alphanumerics and hyphens that neither starts nor ends with a hyphen is
returned unchanged. -/
theorem dnsifyList_fixed (l : List Char)
    (hlen : l.length ≤ 62)
    (hgood : ∀ c ∈ l, goodOut c = true)
    (hhead : l.head? ≠ some '-')
    (hlast : l.getLast? ≠ some '-') :
    dnsifyList l = l := by
  match l, hlen, hgood, hhead, hlast with
  | [], _, _, _, _ => rfl
  | c₀ :: rest, hlen, hgood, hhead, hlast =>
    have hc₀ : goodOut c₀ = true := hgood c₀ (List.mem_cons_self _ _)
    have hc₀ne : c₀ ≠ '-' := by
      intro hcontra
      exact hhead (by simp [hcontra])
    have hld := lower_digit_of_goodOut_ne_hyphen hc₀ hc₀ne
    have hstep : dnsifyStep [] c₀ = [c₀] := by
      unfold dnsifyStep
      rw [if_neg (show ¬ isSep c₀ = true by simp [not_isSep_of_lower_digit hld]),
        if_neg (show ¬ ((!c₀.isAlphanum) = true) by simp [isAlphanum_of_lower_digit hld]),
        if_pos hld]
      rfl
    have hlen' : 1 + rest.length ≤ 62 := by
      simp only [List.length_cons] at hlen
      omega
    have hloop : dnsifyLoop [] (c₀ :: rest) = c₀ :: rest := by
      have hrec : dnsifyLoop [] (c₀ :: rest) = dnsifyLoop (dnsifyStep [] c₀) rest := rfl
      have hih := dnsifyLoop_fixed_aux rest [c₀] (by simp)
        (by simpa using hlen') (fun c' hc' => hgood c' (List.mem_cons_of_mem _ hc'))
      rw [hrec, hstep, hih]
      simp
    unfold dnsifyList
    rw [hloop, if_neg hlast]

/-- The output of the character pass consists of lowercase alphanumerics and
hyphens and does not start with a hyphen, for arbitrary input. -/
theorem dnsifyList_output_ok (l : List Char) :
    (∀ c ∈ dnsifyList l, goodOut c = true) ∧ (dnsifyList l).head? ≠ some '-' := by
  have hinv := dnsifyLoop_invariant l [] (by simp) (by simp)
  unfold dnsifyList
  by_cases hl : (dnsifyLoop [] l).getLast? = some '-'
  · rw [if_pos hl]
    constructor
    · intro c hc
      exact hinv.1 c (List.dropLast_subset _ hc)
    · exact head?_dropLast_ne _ hinv.2
  · rw [if_neg hl]
    exact hinv

/-- For inputs shorter than 63 characters, `_dnsify` is exactly the character
pass (the hashing branch is not taken). -/
theorem dnsify_short (hf : String → String) (s : String) (h : ¬ 63 ≤ s.length) :
    _dnsify hf s = String.mk (dnsifyList s.data) := by
  simp only [_dnsify]
  rw [if_neg h]

/-- C3 (amended): for every string shorter than 63 characters over letters,
digits, underscore, hyphen and dot, whose `_dnsify` output is at most 62
characters long and does not end with a hyphen, `_dnsify` is idempotent.
(The original claim fails when the output ends with a hyphen — see the
counterexample — and when uppercase expansion pushes the output to 63 or more
characters, which makes the second application take the hashing branch.) -/
theorem dnsify_idempotent_on_clean_outputs (hf : String → String) (s : String)
    (hlen : s.length < 63)
    (_hchars : ∀ c ∈ s.data, allowedChar c = true)
    (hout : (_dnsify hf s).length ≤ 62)
    (hlast : (_dnsify hf s).data.getLast? ≠ some '-') :
    _dnsify hf (_dnsify hf s) = _dnsify hf s := by
  have heq : _dnsify hf s = String.mk (dnsifyList s.data) :=
    dnsify_short hf s (by omega)
  rw [heq] at hout hlast ⊢
  have hout' : (dnsifyList s.data).length ≤ 62 := hout
  have hlast' : (dnsifyList s.data).getLast? ≠ some '-' := hlast
  obtain ⟨hgood, hhead⟩ := dnsifyList_output_ok s.data
  have hfix : dnsifyList (dnsifyList s.data) = dnsifyList s.data :=
    dnsifyList_fixed (dnsifyList s.data) hout' hgood hhead hlast'
  have h2 : _dnsify hf (String.mk (dnsifyList s.data)) =
      String.mk (dnsifyList (dnsifyList s.data)) :=
    dnsify_short hf (String.mk (dnsifyList s.data)) (by
      have hlm : (String.mk (dnsifyList s.data)).length = (dnsifyList s.data).length := rfl
      omega)
  rw [h2, hfix]

/-- Witness for C3's amended theorem at the spec's own example input
"My_Task.Name". -/
theorem dnsify_idempotent_on_clean_outputs_witness :
    (( "My_Task.Name" : String).length < 63 ∧
      (∀ c ∈ ( "My_Task.Name" : String).data, allowedChar c = true) ∧
      (_dnsify noHash "My_Task.Name").length ≤ 62 ∧
      (_dnsify noHash "My_Task.Name").data.getLast? ≠ some '-') ∧
    _dnsify noHash (_dnsify noHash "My_Task.Name") = _dnsify noHash "My_Task.Name" :=
  ⟨⟨by decide, by decide, by decide, by decide⟩,
    dnsify_idempotent_on_clean_outputs noHash "My_Task.Name"
      (by decide) (by decide) (by decide) (by decide)⟩

/-- Counterexample to C3 as stated: "b.." is shorter than 63 characters and
contains only allowed characters, yet sanitizing it twice ("b") differs from
sanitizing it once ("b-"). -/
theorem dnsify_not_idempotent_counterexample :
    (( "b.." : String).length < 63 ∧
      (∀ c ∈ ( "b.." : String).data, allowedChar c = true)) ∧
    _dnsify noHash (_dnsify noHash "b..") ≠ _dnsify noHash "b.." := by
  exact ⟨⟨by decide, by decide⟩, by decide⟩

/-- C1: evaluation of `_dnsify` at the failing input "a..": the result "a-"
ends with a hyphen, although both the claim and the function's own docstring
say the output never ends with a hyphen (the final strip removes only one of
the two accumulated trailing hyphens). -/
theorem dnsify_a_dotdot_ends_with_hyphen :
    _dnsify noHash "a.." = "a-" ∧ (_dnsify noHash "a..").data.getLast? = some '-' := by
  exact ⟨by decide, by decide⟩

/-- C2: evaluation of `_dnsify` at the failing input "x--", which is shorter
than 63 characters and made only of allowed characters: the result "x-" ends
with a hyphen, contradicting the claim. -/
theorem dnsify_x_dashdash_ends_with_hyphen :
    (( "x--" : String).length < 63 ∧
      (∀ c ∈ ( "x--" : String).data, allowedChar c = true)) ∧
    _dnsify noHash "x--" = "x-" ∧ (_dnsify noHash "x--").data.getLast? = some '-' := by
  exact ⟨⟨by decide, by decide⟩, by decide, by decide⟩

/-- C4 (amended): in the left-to-right character pass, each separator
character appends one hyphen to the output; the hyphen is suppressed only
when the output is empty or has already reached 62 characters — not when the
output already ends in a hyphen — so a run of n consecutive separators,
reached with nonempty output and fitting under the 62-character cap,
contributes n consecutive hyphens rather than collapsing to one. -/
theorem dnsify_separator_run_appends_each_hyphen :
    (∀ ch, isSep ch = true → dnsifyStep [] ch = []) ∧
    (∀ (res : List Char) (ch : Char), isSep ch = true → 62 ≤ res.length →
      dnsifyStep res ch = res) ∧
    (∀ (acc : List Char) (seps : List Char), acc ≠ [] → acc.length + seps.length ≤ 62 →
      (∀ c ∈ seps, isSep c = true) →
      dnsifyLoop acc seps = acc ++ List.replicate seps.length '-') := by
  refine ⟨?_, ?_, ?_⟩
  · intro ch hch
    unfold dnsifyStep
    rw [if_pos hch, if_neg (show ¬ (([] : List Char) ≠ [] ∧ ([] : List Char).length < 62)
      from fun hcontra => hcontra.1 rfl)]
  · intro res ch hch hlen
    unfold dnsifyStep
    rw [if_pos hch, if_neg (show ¬ (res ≠ [] ∧ res.length < 62)
      from fun hcontra => absurd hcontra.2 (by omega))]
  · intro acc seps
    induction seps generalizing acc with
    | nil => intro hne _ _; simp [dnsifyLoop]
    | cons c seps ih =>
      intro hne hlen hsep
      have hlen' : acc.length + seps.length + 1 ≤ 62 := by
        simp only [List.length_cons] at hlen
        omega
      have hstep : dnsifyStep acc c = acc ++ ['-'] := by
        unfold dnsifyStep
        rw [if_pos (hsep c (List.mem_cons_self _ _)),
          if_pos (show acc ≠ [] ∧ acc.length < 62 from ⟨hne, by omega⟩)]
      have hrec : dnsifyLoop acc (c :: seps) = dnsifyLoop (dnsifyStep acc c) seps := rfl
      have hih := ih (acc ++ ['-']) (by simp)
        (by simp only [List.length_append, List.length_singleton]; omega)
        (fun c' hc' => hsep c' (List.mem_cons_of_mem _ hc'))
      rw [hrec, hstep, hih]
      simp [List.replicate_succ]

/-- Witness for C4's amended theorem: a run of the two separators '.' and '_'
after output "a" contributes two hyphens. -/
theorem dnsify_separator_run_appends_each_hyphen_witness :
    ((['a'] : List Char) ≠ [] ∧
      (['a'] : List Char).length + (['.', '_'] : List Char).length ≤ 62 ∧
      (∀ c ∈ (['.', '_'] : List Char), isSep c = true)) ∧
    dnsifyLoop ['a'] ['.', '_'] = ['a'] ++ List.replicate (['.', '_'] : List Char).length '-' :=
  ⟨⟨by decide, by decide, by decide⟩,
    dnsify_separator_run_appends_each_hyphen.2.2 ['a'] ['.', '_']
      (by decide) (by decide) (by decide)⟩

/-- Counterexample to C4 as stated: the separator run ".." in "a..b" does not
collapse to a single hyphen; the output is "a--b", not "a-b". -/
theorem dnsify_separator_run_counterexample :
    _dnsify noHash "a..b" = "a--b" ∧ _dnsify noHash "a..b" ≠ "a-b" := by
  exact ⟨by decide, by decide⟩

theorem kvLookup_sanitize_name (c : V1Container) :
    kvLookup (sanitizeContainerFields c) "name" = some (KVal.str c.name) := rfl

theorem kvLookup_sanitize_image (c : V1Container) (i : String) (h : c.image = some i) :
    kvLookup (sanitizeContainerFields c) "image" = some (KVal.str i) := by
  simp only [sanitizeContainerFields, h]
  rfl

theorem transform_keeps_name {Cfg : Type}
    (grci : Option String → Cfg → String) (settings : SerializationSettings Cfg)
    (pn : String) (p : Container) (c : V1Container) :
    (transformContainer grci settings pn p c).name = c.name := by
  unfold transformContainer
  by_cases h : c.name = pn
  · rw [if_pos h]
  · rw [if_neg h]

theorem transform_primary_image_declared {Cfg : Type}
    (grci : Option String → Cfg → String) (settings : SerializationSettings Cfg)
    (pn : String) (p : Container) (c : V1Container) (i : String)
    (hname : c.name = pn) (himg : c.image = some i) :
    (transformContainer grci settings pn p c).image =
      some (grci (some i) settings.image_config) := by
  unfold transformContainer
  rw [if_pos hname, himg]

theorem transform_primary_image_none {Cfg : Type}
    (grci : Option String → Cfg → String) (settings : SerializationSettings Cfg)
    (pn : String) (p : Container) (c : V1Container)
    (hname : c.name = pn) (himg : c.image = none) :
    (transformContainer grci settings pn p c).image = some p.image := by
  unfold transformContainer
  rw [if_pos hname, himg]

/-- C6: for every pod template whose `pod_spec` is `None`,
`_serialize_pod_spec` returns the empty mapping, regardless of the primary
container, the settings and the image-resolution function. -/
theorem serialize_empty_when_no_pod_spec {Cfg : Type}
    (grci : Option String → Cfg → String) (pt : PodTemplate) (p : Container)
    (settings : SerializationSettings Cfg) (h : pt.pod_spec = none) :
    _serialize_pod_spec grci pt p settings = [] := by
  unfold _serialize_pod_spec
  rw [h]

/-- Witness for C6 at a concrete template without a pod spec. -/
theorem serialize_empty_when_no_pod_spec_witness :
    (PodTemplate.mk none "p").pod_spec = none ∧
    _serialize_pod_spec egResolve (PodTemplate.mk none "p") egPrimary egSettings = [] :=
  ⟨rfl, serialize_empty_when_no_pod_spec egResolve (PodTemplate.mk none "p")
    egPrimary egSettings rfl⟩

/-- C5: for every pod template whose primary-named container declares a
non-`None` image, the serialized output contains a container with the
primary name whose image is `get_registerable_container_image` applied to
the declared image and the image configuration.  The computed primary
container `p` is universally quantified and absent from the resulting image
value, so the final image is never taken from the caller's computed
container. -/
theorem serialize_primary_declared_image_resolved {Cfg : Type}
    (grci : Option String → Cfg → String) (pt : PodTemplate) (p : Container)
    (settings : SerializationSettings Cfg) (ps : V1PodSpec) (c : V1Container) (img : String)
    (hps : pt.pod_spec = some ps) (hc : c ∈ ps.containers)
    (hname : c.name = pt.primary_container_name) (himg : c.image = some img) :
    ∃ l, _serialize_pod_spec grci pt p settings = [( "containers", KVal.arr l)] ∧
      ∃ fields, KVal.obj fields ∈ l ∧
        kvLookup fields "name" = some (KVal.str pt.primary_container_name) ∧
        kvLookup fields "image" =
          some (KVal.str (grci (some img) settings.image_config)) := by
  obtain ⟨pspec, pname⟩ := pt
  obtain rfl : pspec = some ps := hps
  simp only [_serialize_pod_spec] at *
  rw [if_pos (show ∃ c' ∈ ps.containers, c'.name = pname from ⟨c, hc, hname⟩)]
  refine ⟨_, rfl, ?_⟩
  refine ⟨sanitizeContainerFields
    (transformContainer grci settings pname p c), ?_, ?_, ?_⟩
  · exact List.mem_map.mpr
      ⟨transformContainer grci settings pname p c,
        List.mem_map.mpr ⟨c, hc, rfl⟩, rfl⟩
  · rw [kvLookup_sanitize_name, transform_keeps_name, hname]
  · rw [kvLookup_sanitize_image _ _
      (transform_primary_image_declared grci settings pname p c img hname himg)]

/-- Witness for C5 at a concrete template whose primary container declares
the image "declared". -/
theorem serialize_primary_declared_image_resolved_witness :
    (egTemplateDeclared.pod_spec = some egPodSpecDeclared ∧
      egDeclared ∈ egPodSpecDeclared.containers ∧
      egDeclared.name = egTemplateDeclared.primary_container_name ∧
      egDeclared.image = some "declared") ∧
    ∃ l, _serialize_pod_spec egResolve egTemplateDeclared egPrimary egSettings
        = [( "containers", KVal.arr l)] ∧
      ∃ fields, KVal.obj fields ∈ l ∧
        kvLookup fields "name" =
          some (KVal.str egTemplateDeclared.primary_container_name) ∧
        kvLookup fields "image" =
          some (KVal.str (egResolve (some "declared") egSettings.image_config)) :=
  ⟨⟨rfl, List.mem_singleton.mpr rfl, rfl, rfl⟩,
    serialize_primary_declared_image_resolved egResolve egTemplateDeclared egPrimary
      egSettings egPodSpecDeclared egDeclared "declared"
      rfl (List.mem_singleton.mpr rfl) rfl rfl⟩

/-- C10: for every pod template with a pod spec in which no container is
named with the primary name, the serialized output contains a container
with the primary name whose image equals the computed primary container's
image: the synthesized placeholder has image `None`, so the computed image
is adopted rather than passed through image resolution. -/
theorem serialize_missing_primary_adopts_computed_image {Cfg : Type}
    (grci : Option String → Cfg → String) (pt : PodTemplate) (p : Container)
    (settings : SerializationSettings Cfg) (ps : V1PodSpec)
    (hps : pt.pod_spec = some ps)
    (hnone : ∀ c ∈ ps.containers, c.name ≠ pt.primary_container_name) :
    ∃ l, _serialize_pod_spec grci pt p settings = [( "containers", KVal.arr l)] ∧
      ∃ fields, KVal.obj fields ∈ l ∧
        kvLookup fields "name" = some (KVal.str pt.primary_container_name) ∧
        kvLookup fields "image" = some (KVal.str p.image) := by
  obtain ⟨pspec, pname⟩ := pt
  obtain rfl : pspec = some ps := hps
  simp only [_serialize_pod_spec] at *
  rw [if_neg (show ¬ ∃ c' ∈ ps.containers, c'.name = pname from
    fun ⟨c', hc', hn'⟩ => hnone c' hc' hn')]
  refine ⟨_, rfl, ?_⟩
  refine ⟨sanitizeContainerFields
    (transformContainer grci settings pname p
      (V1Container.mk pname none none none none none)), ?_, ?_, ?_⟩
  · exact List.mem_map.mpr
      ⟨transformContainer grci settings pname p
        (V1Container.mk pname none none none none none),
        List.mem_map.mpr
          ⟨V1Container.mk pname none none none none none,
            List.mem_append_right _ (List.mem_singleton.mpr rfl), rfl⟩, rfl⟩
  · rw [kvLookup_sanitize_name, transform_keeps_name]
  · rw [kvLookup_sanitize_image _ _
      (transform_primary_image_none grci settings pname p
        (V1Container.mk pname none none none none none) rfl rfl)]

/-- Witness for C10 at a concrete template whose only container is named
"other" while the primary name is "p". -/
theorem serialize_missing_primary_adopts_computed_image_witness :
    (egTemplateNoPrimary.pod_spec = some egPodSpecOther ∧
      ∀ c ∈ egPodSpecOther.containers,
        c.name ≠ egTemplateNoPrimary.primary_container_name) ∧
    ∃ l, _serialize_pod_spec egResolve egTemplateNoPrimary egPrimary egSettings
        = [( "containers", KVal.arr l)] ∧
      ∃ fields, KVal.obj fields ∈ l ∧
        kvLookup fields "name" =
          some (KVal.str egTemplateNoPrimary.primary_container_name) ∧
        kvLookup fields "image" = some (KVal.str egPrimary.image) :=
  ⟨⟨rfl, by decide⟩,
    serialize_missing_primary_adopts_computed_image egResolve egTemplateNoPrimary
      egPrimary egSettings egPodSpecOther rfl (by decide)⟩

theorem foldl_set_getElem?_lt {α : Type} (g : List α → Nat → α) :
    ∀ (rs : List Nat) (σ : List α) (i : Nat), (∀ r ∈ rs, i < r) →
      (rs.foldl (fun σ' r => σ'.set r (g σ' r)) σ)[i]? = σ[i]? := by
  intro rs
  induction rs with
  | nil => intro σ i _; rfl
  | cons r rs ih =>
    intro σ i hlt
    have h1 : i < r := hlt r (List.mem_cons_self _ _)
    have h2 := ih (σ.set r (g σ r)) i (fun r' hr' => hlt r' (List.mem_cons_of_mem _ hr'))
    rw [List.foldl_cons, h2, List.getElem?_set_ne (by omega)]

/-- C7: `_serialize_pod_spec` leaves the caller's pod template unchanged.
In the heap model every container cell that existed before the call — in
particular every container reachable from the caller's template — holds the
same value after the call: the deep copy allocates fresh cells at indices at
least `σ.length` and every subsequent write of the loop targets those fresh
cells; the template value itself (its `pod_spec` references and
`primary_container_name`) is never written at all. -/
theorem serialize_heap_preserves_caller_containers {Cfg : Type}
    (grci : Option String → Cfg → String) (pt : PodTemplateRef) (p : Container)
    (settings : SerializationSettings Cfg) (σ : List V1Container) (i : Nat)
    (hi : i < σ.length) :
    (_serialize_pod_spec_heap grci pt p settings σ).2[i]? = σ[i]? := by
  obtain ⟨pspec, pname⟩ := pt
  cases pspec with
  | none => rfl
  | some refs =>
    simp only [_serialize_pod_spec_heap]
    by_cases hex : ∃ r ∈ (List.range refs.length).map (fun k => σ.length + k),
        (storeRead (σ ++ refs.map (fun r => storeRead σ r)) r).name = pname
    · rw [if_pos hex, if_pos hex]
      rw [foldl_set_getElem?_lt]
      · exact List.getElem?_append_left hi
      · intro r hr
        simp only [List.mem_map, List.mem_range] at hr
        obtain ⟨k, hk, rfl⟩ := hr
        omega
    · rw [if_neg hex, if_neg hex]
      rw [foldl_set_getElem?_lt]
      · rw [List.getElem?_append_left
          (show i < (σ ++ refs.map (fun r => storeRead σ r)).length by
            simp only [List.length_append]; omega)]
        exact List.getElem?_append_left hi
      · intro r hr
        rcases List.mem_append.mp hr with hr | hr
        · simp only [List.mem_map, List.mem_range] at hr
          obtain ⟨k, hk, rfl⟩ := hr
          omega
        · rw [List.mem_singleton.mp hr]
          simp only [List.length_append]
          omega

/-- Witness for C7: a one-cell store holding the caller's container, a
template referencing that cell, read back unchanged after the call. -/
theorem serialize_heap_preserves_caller_containers_witness :
    0 < ([V1Container.mk "c0" (some "x") none none none none] : List V1Container).length ∧
    (_serialize_pod_spec_heap egResolve (PodTemplateRef.mk (some [0]) "p") egPrimary
        egSettings [V1Container.mk "c0" (some "x") none none none none]).2[0]?
      = ([V1Container.mk "c0" (some "x") none none none none] : List V1Container)[0]? :=
  ⟨by decide,
    serialize_heap_preserves_caller_containers egResolve (PodTemplateRef.mk (some [0]) "p")
      egPrimary egSettings [V1Container.mk "c0" (some "x") none none none none] 0
      (by decide)⟩

/-- C8: with limits cpu "1" and memory "1Gi" and empty requests, the
container built by `_get_container_definition` has exactly the two limit
entries CPU before MEMORY and no request entries. -/
theorem container_definition_cpu_memory_limits :
    ((_get_container_definition "img"
        (ResourceSpec.mk (PyResources.mk (some "1") (some "1Gi") none none)
          (PyResources.mk none none none none))
        [ "cmd"] none none none).resources.limits =
      [ResourceEntry.mk ResourceName.CPU "1", ResourceEntry.mk ResourceName.MEMORY "1Gi"]) ∧
    ((_get_container_definition "img"
        (ResourceSpec.mk (PyResources.mk (some "1") (some "1Gi") none none)
          (PyResources.mk none none none none))
        [ "cmd"] none none none).resources.requests = []) :=
  ⟨rfl, rfl⟩

/-- C9: for every wrapped body — also one that raises — `timeit` appends
exactly one timing record to the timeline deck per completed scope, and
returns the body's outcome unchanged, so a raised exception propagates
unchanged after the record is appended.  The decorator form `timeit_call`
is definitionally a `timeit_run` per call. -/
theorem timeit_appends_one_record_and_propagates {ε α : Type} (name : String)
    (body : TState → Except ε α × TState) (s : TState) :
    (timeit_run name body s).1 = (body s).1 ∧
    (timeit_run name body s).2.deck = (body s).2.deck ++
      [TimeRecord.mk name s.utcNow (body s).2.utcNow
        (((body s).2.perfCounter : Int) - (s.perfCounter : Int))
        (((body s).2.processTime : Int) - (s.processTime : Int))] := by
  unfold timeit_run pythonWith timeit_enter timeit_exit
  rcases hb : body s with ⟨r, s1⟩
  cases r <;> simp [hb]

end Flytekit
